import Mathlib

/-!
Verification of the sofie-package-manager core against its specification.

The development shallowly embeds the relevant TypeScript sources:
  - `hashObj`, `deepEqual`, `stringifyError`, `promiseTimeout`, `deferGets`
    from the shared api library (src/unnamed/part_000),
  - `evaluateExpectationStateWaiting` from
    src/shared/packages/expectationManager/src/evaluationRunner/evaluateExpectationStates/waiting.ts,
  - the `Accessor` type definitions from the package api (src/unnamed/part_000).

JavaScript runtime values handled by `hashObj`/`deepEqual` are modelled by the
inductive type `JsVal`; machine behaviour such as string coercion and
truthiness is made explicit in the definitions.
-/

/-! ## A model of JavaScript values (for hashObj / deepEqual) -/

/-- A JSON-like JavaScript runtime value: `undefined`, `null`, booleans,
numbers (restricted to integers, which is what the repository hashes),
strings, arrays and plain objects (a list of key/value properties, in
insertion order; real JS objects have no duplicate keys). -/
inductive JsVal where
  | undef
  | null
  | bool (b : Bool)
  | num (n : Int)
  | str (s : String)
  | arr (items : List JsVal)
  | obj (fields : List (String × JsVal))
deriving Repr

/-- Lexicographic comparison of character lists by code point, the order the
JS comparator `(a, b) => a > b ? 1 : a < b ? -1 : 0` induces on keys. -/
def strLeB : List Char → List Char → Bool
  | [], _ => true
  | _ :: _, [] => false
  | c :: cs, d :: ds =>
    if c.toNat < d.toNat then true
    else if d.toNat < c.toNat then false
    else strLeB cs ds

/-- String order used when `hashObj` sorts the keys of an object. -/
def jsKeyLe (a b : String) : Bool := strLeB a.data b.data

/-- Order on key/value properties that compares only the keys; `hashObj`
sorts object properties with it before hashing. -/
def fieldLe {α : Type} (p q : String × α) : Prop := jsKeyLe p.1 q.1 = true

instance {α : Type} : DecidableRel (@fieldLe α) :=
  fun p q => inferInstanceAs (Decidable (jsKeyLe p.1 q.1 = true))

/-- JS falsiness of a value, as tested by `if (!obj)` in `hashObj`:
`undefined`, `null`, `false`, `0` and the empty string are falsy, every
array and object is truthy. -/
def jsFalsy : JsVal → Bool
  | .undef => true
  | .null => true
  | .bool b => !b
  | .num n => n == 0
  | .str s => s == ""
  | .arr _ => false
  | .obj _ => false

/-- JS coercion to a string (appending the empty string) for the primitive
values that reach the final branch of `hashObj`. -/
def jsPrimToString : JsVal → String
  | .undef => "undefined"
  | .null => "null"
  | .bool b => if b then "true" else "false"
  | .num n => toString n
  | .str s => s
  | .arr _ => ""
  | .obj _ => "[object Object]"

mutual
/-- Embedding of `hashObj` (src/unnamed/part_000, lines 373-400).  The
underlying `hash` (sha1-hex over node crypto, an external library call) is
abstracted as the parameter `h`; every theorem below quantifies over it, so
nothing depends on sha1 beyond what the claims grant.  Falsy input returns
the empty string; arrays hash the joined element hashes; objects sort their
keys and hash the joined property-value hashes (the source iterates the
sorted keys and looks each value up, which on the duplicate-free key lists
of real JS objects is the same as sorting the properties by key). -/
def hashObjWith (h : String → String) (v : JsVal) : String :=
  if jsFalsy v then ""
  else
    match v with
    | .arr items => h (String.intercalate "," (hashValList h items))
    | .obj fields =>
        h (String.intercalate "|"
            ((List.insertionSort fieldLe (hashFieldList h fields)).map Prod.snd))
    | w => jsPrimToString w

/-- The element hashes of an array, in order (the `strs` accumulator of the
array branch of `hashObj`). -/
def hashValList (h : String → String) : List JsVal → List String
  | [] => []
  | v :: vs => hashObjWith h v :: hashValList h vs

/-- Each property paired with the hash of its value (the object branch of
`hashObj` before sorting). -/
def hashFieldList (h : String → String) : List (String × JsVal) → List (String × String)
  | [] => []
  | p :: ps => (p.1, hashObjWith h p.2) :: hashFieldList h ps
end

mutual
/-- Canonical form of a value under reordering of object keys: object
properties are recursively sorted by key, array order is kept.  Two values
are the same map from keys to values up to object-key order exactly when
their canonical forms are equal. -/
def canonKeyOrder : JsVal → JsVal
  | .arr items => .arr (canonList items)
  | .obj fields => .obj (List.insertionSort fieldLe (canonFieldList fields))
  | v => v

def canonList : List JsVal → List JsVal
  | [] => []
  | v :: vs => canonKeyOrder v :: canonList vs

def canonFieldList : List (String × JsVal) → List (String × JsVal)
  | [] => []
  | p :: ps => (p.1, canonKeyOrder p.2) :: canonFieldList ps
end

/-- JS property access `o[key]` on the object model: the first property with
the key (JS objects have no duplicate keys), `undefined` when absent. -/
def jsLookup : List (String × JsVal) → String → JsVal
  | [], _ => .undef
  | (k, v) :: fs, key => if k == key then v else jsLookup fs key

/-- Strict equality `===` for the cases reached by the final branch of
`deepEqual` (at least one side is not an array or object; object/array
identity is irrelevant there because the object cases are matched first). -/
def jsStrictEq : JsVal → JsVal → Bool
  | .undef, .undef => true
  | .null, .null => true
  | .bool a, .bool b => a == b
  | .num a, .num b => a == b
  | .str a, .str b => a == b
  | _, _ => false

mutual
/-- Embedding of `deepEqual` (src/unnamed/part_000, lines 440-462): when both
sides are objects it requires the same array-ness, the same number of keys
and recursively equal values at the keys of the first side; otherwise it is
strict equality. -/
def deepEqual : JsVal → JsVal → Bool
  | .arr xs, .arr ys => xs.length == ys.length && deepEqualList xs ys
  | .obj fs, .obj gs => fs.length == gs.length && deepEqualFields fs gs
  | .arr _, .obj _ => false
  | .obj _, .arr _ => false
  | a, b => jsStrictEq a b

/-- Pointwise `deepEqual` over array elements (the key loop of the source on
integer indices). -/
def deepEqualList : List JsVal → List JsVal → Bool
  | [], _ => true
  | _ :: _, [] => false
  | x :: xs, y :: ys => deepEqual x y && deepEqualList xs ys

/-- The key loop of the source over the properties of the first object: each
value must deep-equal the value looked up in the second object. -/
def deepEqualFields : List (String × JsVal) → List (String × JsVal) → Bool
  | [], _ => true
  | (k, v) :: fs, gs => deepEqual v (jsLookup gs k) && deepEqualFields fs gs
end

/-! ## Error values and stringifyError -/

/-- A JS error value as observed by `stringifyError`: `base` is the string
coercion of the value, `isObject` tells whether `typeof error` is `object`
(with the value truthy), `reason`/`context`/`stack` are the homonymous
properties (`none` models an absent property), and `json` is what
`JSON.stringify` would return (`none` models a stringify throw). -/
structure ErrVal where
  base : String
  isObject : Bool
  reason : Option String
  context : Option String
  stack : Option String
  json : Option String
deriving DecidableEq, Repr

/-- JS truthiness of an optional string property: present and non-empty. -/
def truthyStr : Option String → Bool
  | some s => s != ""
  | none => false

/-- Embedding of `stringifyError` (src/unnamed/part_000, lines 464-492).
The source declares `noStack` with default `false`; callers in the sources
under scrutiny never pass it, so the model takes it explicitly and every
use below passes `false`. -/
def stringifyError (e : ErrVal) (noStack : Bool) : String :=
  let str1 := if e.isObject && truthyStr e.reason then e.reason.getD "" else e.base
  let str2 :=
    if e.isObject && truthyStr e.context then str1 ++ ", Context: " ++ e.context.getD ""
    else str1
  let str3 :=
    if !noStack && (e.isObject && truthyStr e.stack) then str2 ++ ", " ++ e.stack.getD ""
    else str2
  if str3 = "[object Object]" then
    match e.json with
    | some j => if j.length > 200 then j.take 200 ++ "..." else j
    | none => "[Error in stringifyError: Failed to stringify]"
  else str3

/-! ## The WAITING-state evaluation (waiting.ts) -/

/-- The work-status states of `ExpectedPackageStatusAPI.WorkStatusState`. -/
inductive WorkStatusState where
  | NEW
  | WAITING
  | READY
  | WORKING
  | FULFILLED
  | REMOVED
  | RESTARTED
  | ABORTED
deriving DecidableEq, Repr

/-- A user/tech reason pair. -/
structure Reason where
  user : String
  tech : String
deriving DecidableEq, Repr

/-- The parts of `trackedExp.status` that the WAITING evaluation can touch
(`sourceExists`) or that the claims observe (`actualVersionHash`). -/
structure ExpStatus where
  sourceExists : Option Bool
  actualVersionHash : Option String
deriving DecidableEq, Repr

/-- A tracked expectation as observed by the WAITING evaluation: its state,
last reason, status record and error flag. -/
structure TrackedExp where
  state : WorkStatusState
  reason : Reason
  status : ExpStatus
  isError : Bool
deriving DecidableEq, Repr

/-- The partial status argument built by waiting.ts (`newStatus`): the
`sourceExists` key is present exactly when the worker reply defines it. -/
structure StatusUpdate where
  sourceExists : Option Bool
deriving DecidableEq, Repr

/-- The partial update passed to `tracker.updateTrackedExpectationStatus`;
`none` models an absent key. -/
structure UpdateArg where
  state : Option WorkStatusState
  reason : Option Reason
  status : Option StatusUpdate
  isError : Option Bool
deriving DecidableEq, Repr

/-- Modelled from the spec: `tracker.updateTrackedExpectationStatus` of the
expectation manager (its implementation is not under src/; waiting.ts only
calls it).  Per the spec, section 3, it merges the provided partial fields
into the tracked expectation: provided fields overwrite, absent fields are
kept; a partial status only overwrites the status keys it carries. -/
def applyUpdate (t : TrackedExp) (u : UpdateArg) : TrackedExp :=
  { state := u.state.getD t.state
    reason := u.reason.getD t.reason
    status :=
      match u.status with
      | none => t.status
      | some s =>
          { sourceExists :=
              match s.sourceExists with
              | some b => some b
              | none => t.status.sourceExists
            actualVersionHash := t.status.actualVersionHash }
    isError := u.isError.getD t.isError }

/-- Reply of the worker RPC `isExpectationFullfilled` (spec, section 6):
`fulfilled`, a reason, and optionally the actual version hash found. -/
structure FulfilledReply where
  fulfilled : Bool
  reason : Reason
  actualVersionHash : Option String
deriving DecidableEq, Repr

/-- Reply of `isExpectationReadyToStartWorkingOn` (spec, section 6). -/
structure ReadyReply where
  ready : Bool
  isWaitingForAnother : Option Bool
  sourceExists : Option Bool
  reason : Reason
deriving DecidableEq, Repr

/-- The per-evaluation session scratch area of a tracked expectation, as
waiting.ts leaves it. -/
structure EvalSession where
  assignedWorker : Option String
  triggerOtherExpectationsAgain : Bool
deriving DecidableEq, Repr

/-- Externally visible actions of one WAITING evaluation, in order: the two
worker RPCs, the call to `tracker.onExpectationFullfilled`, the warning log
of the catch block and the `tracker.noWorkerAssigned` record. -/
inductive EvalEffect where
  | rpcIsExpectationFullfilled
  | rpcIsExpectationReadyToStartWorkingOn
  | callOnExpectationFullfilled
  | logWarn (msg : String)
  | noWorkerAssignedRecord
deriving DecidableEq, Repr

/-- The environment of one WAITING evaluation: which worker (if any)
`manager.assignWorkerToSession` assigned, what each worker RPC would return
(`Except.error` models a thrown exception), and what
`tracker.onExpectationFullfilled` would report (whether any dependent
expectation was triggered). -/
structure EvalInput where
  assignedWorker : Option String
  fulfilledResult : Except ErrVal FulfilledReply
  readyResult : Except ErrVal ReadyReply
  onExpectationFullfilledReturn : Bool
deriving Repr

/-- Result of one WAITING evaluation: the tracked expectation after all
updates, the session scratch area, and the emitted effects. -/
structure EvalOutput where
  tracked : TrackedExp
  session : EvalSession
  effects : List EvalEffect
deriving DecidableEq, Repr

/-- The update applied by the catch block of waiting.ts. -/
def waitingCatchUpdate (workerId : String) (e : ErrVal) : UpdateArg :=
  { state := some .NEW
    reason := some
      { user := "Restarting due to error"
        tech := "Error from worker " ++ workerId ++ ": \"" ++ stringifyError e false ++ "\"" }
    status := none
    isError := some true }

/-- Embedding of `evaluateExpectationStateWaiting` (waiting.ts).  The
`assertState` guard is modelled as an `Except.error`; the async worker calls
are replaced by their environment-provided results, a thrown call taking the
catch path.  Effects are listed in program order. -/
def evaluateExpectationStateWaiting (input : EvalInput) (trackedExp : TrackedExp) :
    Except String EvalOutput :=
  if trackedExp.state ≠ WorkStatusState.WAITING then
    .error "assertState: expected WAITING"
  else
    match input.assignedWorker with
    | none =>
        -- No worker is available at the moment: only record it.
        .ok { tracked := trackedExp
              session := { assignedWorker := none, triggerOtherExpectationsAgain := false }
              effects := [.noWorkerAssignedRecord] }
    | some workerId =>
        match input.fulfilledResult with
        | .error e =>
            .ok { tracked := applyUpdate trackedExp (waitingCatchUpdate workerId e)
                  session := { assignedWorker := some workerId
                               triggerOtherExpectationsAgain := false }
                  effects := [.rpcIsExpectationFullfilled,
                              .logWarn ("Error in WAITING: " ++ stringifyError e false)] }
        | .ok fulfilled =>
            if fulfilled.fulfilled then
              -- The expectation is already fulfilled.
              .ok { tracked := applyUpdate trackedExp
                      { state := some .FULFILLED, reason := none, status := none, isError := none }
                    session := { assignedWorker := some workerId
                                 triggerOtherExpectationsAgain :=
                                   input.onExpectationFullfilledReturn }
                    effects := [.rpcIsExpectationFullfilled, .callOnExpectationFullfilled] }
            else
              match input.readyResult with
              | .error e =>
                  .ok { tracked := applyUpdate trackedExp (waitingCatchUpdate workerId e)
                        session := { assignedWorker := some workerId
                                     triggerOtherExpectationsAgain := false }
                        effects := [.rpcIsExpectationFullfilled,
                                    .rpcIsExpectationReadyToStartWorkingOn,
                                    .logWarn ("Error in WAITING: " ++ stringifyError e false)] }
              | .ok readyToStart =>
                  let newStatus : StatusUpdate := { sourceExists := readyToStart.sourceExists }
                  let effs := [EvalEffect.rpcIsExpectationFullfilled,
                               EvalEffect.rpcIsExpectationReadyToStartWorkingOn]
                  let sess : EvalSession :=
                    { assignedWorker := some workerId, triggerOtherExpectationsAgain := false }
                  if readyToStart.ready then
                    .ok { tracked := applyUpdate trackedExp
                            { state := some .READY
                              reason := some
                                { user := "About to start working.."
                                  tech := "About to start, was not fulfilled: "
                                            ++ fulfilled.reason.tech }
                              status := some newStatus
                              isError := none }
                          session := sess
                          effects := effs }
                  else if readyToStart.isWaitingForAnother = some true then
                    -- Waiting for another expectation: stay in WAITING.
                    .ok { tracked := applyUpdate trackedExp
                            { state := none
                              reason := some readyToStart.reason
                              status := some newStatus
                              isError := none }
                          session := sess
                          effects := effs }
                  else
                    -- Not ready for some other reason: back to NEW.
                    .ok { tracked := applyUpdate trackedExp
                            { state := some .NEW
                              reason := some readyToStart.reason
                              status := some newStatus
                              isError := none }
                          session := sess
                          effects := effs }

/-! ## deferGets -/

/-- The closure state of the wrapper returned by `deferGets`
(src/unnamed/part_000, lines 631-668): the `defers` map from group id to the
list of pending resolve/reject pairs (here identified by caller ids); the JS
`Map` is modelled as a function to `Option`. -/
structure DeferState where
  defers : String → Option (List Nat)

/-- One call of the wrapper by caller `caller` with group id `g`:
if a call with the same group id is in flight, the caller merely joins its
waiting list; otherwise a new waiting list is created and the wrapped `fcn`
is invoked.  The returned flag tells whether `fcn` was invoked. -/
def deferCall (s : DeferState) (g : String) (caller : Nat) : DeferState × Bool :=
  match s.defers g with
  | some waiting =>
      ({ defers := fun k => if k = g then some (waiting ++ [caller]) else s.defers k },
        false)
  | none =>
      ({ defers := fun k => if k = g then some [caller] else s.defers k }, true)

/-- Settlement of the in-flight invocation for group `g` with result `r`
(the `then`/`catch` continuation of the source): the map entry is deleted and
every waiter of the group is handed the one result `r` (`r` may embed either
a resolution or a rejection). -/
def deferSettle {R : Type} (s : DeferState) (g : String) (r : R) :
    DeferState × List (Nat × R) :=
  ({ defers := fun k => if k = g then none else s.defers k },
    ((s.defers g).getD []).map fun c => (c, r))

/-! ## promiseTimeout -/

/-- The `timeoutMessage` argument of `promiseTimeout`: absent, a string, or a
function of the elapsed duration. -/
inductive TimeoutMessage where
  | noMsg
  | msg (s : String)
  | msgFn (f : Nat → String)

/-- A promise with explicit timing: it settles at `settleTime` (milliseconds
from the start) with `result` (`Except.error` models a rejection). -/
structure TimedPromise (E A : Type) where
  settleTime : Nat
  result : Except E A
deriving Repr

/-- Embedding of `promiseTimeout` (src/unnamed/part_000, lines 415-435).  If
`p` settles strictly before the timer fires, its settlement wins and the
timer is cleared; otherwise the timer rejects with the rendered message, an
empty or absent message falling back to "Timeout" (the or-else fallback of
the source).  A settlement of `p` in the very millisecond the timer fires is
a race in the event loop; the model gives it to the timer.  Rejection
reasons of `p` are injected left, timeout messages right. -/
def promiseTimeout {E A : Type} (p : TimedPromise E A) (timeoutTime : Nat)
    (timeoutMessage : TimeoutMessage) : TimedPromise (E ⊕ String) A :=
  if p.settleTime < timeoutTime then
    { settleTime := p.settleTime, result := p.result.mapError Sum.inl }
  else
    let duration := timeoutTime
    let m :=
      match timeoutMessage with
      | .msgFn f => f duration
      | .msg s => s
      | .noMsg => ""
    { settleTime := timeoutTime
      result := .error (.inr (if m = "" then "Timeout" else m)) }

/-! ## Accessor definitions -/

/-- Accessor.LocalFolder (src/unnamed/part_000): base fields plus the folder
path and optional resource id. -/
structure AccessorLocalFolder where
  label : String
  allowRead : Bool
  allowWrite : Bool
  resourceId : Option String
  folderPath : String
deriving DecidableEq, Repr

/-- Accessor.FileShare. -/
structure AccessorFileShare where
  label : String
  allowRead : Bool
  allowWrite : Bool
  networkId : Option String
  folderPath : String
  userName : Option String
  password : Option String
deriving DecidableEq, Repr

/-- Accessor.HTTP: the TS interface redeclares the inherited `allowWrite`
field with the literal type `false`, so the only value the field can hold is
`false`; the model carries the literal-type constraint as the proof field
`allowWrite_false`. -/
structure AccessorHTTP where
  label : String
  allowRead : Bool
  allowWrite : Bool
  allowWrite_false : allowWrite = false
  baseUrl : String
  networkId : Option String
deriving Repr

/-- Accessor.HTTPProxy: unlike `Accessor.HTTP`, `allowWrite` keeps the
unconstrained `boolean` type of the base interface. -/
structure AccessorHTTPProxy where
  label : String
  allowRead : Bool
  allowWrite : Bool
  baseUrl : String
  networkId : Option String
deriving DecidableEq, Repr

/-- Accessor.Quantel. -/
structure AccessorQuantel where
  label : String
  allowRead : Bool
  allowWrite : Bool
  quantelGatewayUrl : String
  ISAUrls : List String
  zoneId : Option String
  serverId : Option Int
  networkId : Option String
  transformerURL : Option String
  fileflowURL : Option String
  fileflowProfile : Option String
deriving DecidableEq, Repr

/-- Accessor.CorePackageCollection. -/
structure AccessorCorePackageCollection where
  label : String
  allowRead : Bool
  allowWrite : Bool
deriving DecidableEq, Repr

/-- Accessor.AtemMediaStore. -/
structure AccessorAtemMediaStore where
  label : String
  allowRead : Bool
  allowWrite : Bool
  resourceId : Option String
  networkId : Option String
  atemHost : String
  bankIndex : Int
  mediaType : Bool
deriving DecidableEq, Repr

/-- The discriminated union `Accessor.Any`; the constructor is the `type`
discriminant. -/
inductive AccessorAny where
  | localFolder (a : AccessorLocalFolder)
  | fileShare (a : AccessorFileShare)
  | http (a : AccessorHTTP)
  | httpProxy (a : AccessorHTTPProxy)
  | quantel (a : AccessorQuantel)
  | corePackageCollection (a : AccessorCorePackageCollection)
  | atemMediaStore (a : AccessorAtemMediaStore)
deriving Repr

/-- The `allowWrite` field common to every accessor variant. -/
def AccessorAny.allowWriteOf : AccessorAny → Bool
  | .localFolder a => a.allowWrite
  | .fileShare a => a.allowWrite
  | .http a => a.allowWrite
  | .httpProxy a => a.allowWrite
  | .quantel a => a.allowWrite
  | .corePackageCollection a => a.allowWrite
  | .atemMediaStore a => a.allowWrite

/-- Discriminant test `type === AccessType.HTTP`. -/
def AccessorAny.isHTTP : AccessorAny → Bool
  | .http _ => true
  | _ => false

/-! ## Concrete example values used by the theorems below -/

/-- Failing input of claim C3: two structurally different objects. -/
def c3ObjA : JsVal := .obj [("a", .num 1)]

/-- Failing input of claim C3, second object: same single value under a
different key. -/
def c3ObjB : JsVal := .obj [("b", .num 1)]

/-- A concrete, injective-on-purpose stand-in for the sha1 hash, used only to
instantiate theorems that hold for every hash function. -/
def hashDemo (s : String) : String := "#" ++ toString s.length ++ ":" ++ s

/-- Witness input for claim C4: nested objects with reordered keys. -/
def c4Left : JsVal :=
  .obj [("b", .num 2), ("a", .obj [("y", .str "v"), ("x", .bool true)])]

/-- Witness input for claim C4, the same mappings with keys in the other
order at both depths. -/
def c4Right : JsVal :=
  .obj [("a", .obj [("x", .bool true), ("y", .str "v")]), ("b", .num 2)]

/-- Witness inputs for claim C2: a concrete error value thrown by the
`isExpectationFullfilled` call. -/
def c2Err : ErrVal :=
  { base := "Error: boom", isObject := true, reason := none, context := none,
    stack := some "at line 1", json := none }

/-- Witness tracked expectation in state WAITING, shared by the WAITING
evaluation witnesses. -/
def waitingTracked : TrackedExp :=
  { state := .WAITING
    reason := { user := "", tech := "" }
    status := { sourceExists := none, actualVersionHash := none }
    isError := false }

/-- Witness environment for claim C2. -/
def c2Input : EvalInput :=
  { assignedWorker := some "workerA"
    fulfilledResult := .error c2Err
    readyResult := .ok { ready := false, isWaitingForAnother := none,
                         sourceExists := none, reason := { user := "", tech := "" } }
    onExpectationFullfilledReturn := false }

/-- Witness reply for claim C1: fulfilled, with an actual version hash that
the worker hands back. -/
def c1Fulfilled : FulfilledReply :=
  { fulfilled := true
    reason := { user := "", tech := "Already fulfilled" }
    actualVersionHash := some "abc123" }

/-- Witness environment for claim C1. -/
def c1Input : EvalInput :=
  { assignedWorker := some "workerA"
    fulfilledResult := .ok c1Fulfilled
    readyResult := .ok { ready := false, isWaitingForAnother := none,
                         sourceExists := none, reason := { user := "", tech := "" } }
    onExpectationFullfilledReturn := true }

/-- Witness not-fulfilled reply shared by the C5/C6 witnesses. -/
def notFulfilled : FulfilledReply :=
  { fulfilled := false
    reason := { user := "Not fulfilled", tech := "Target file does not exist" }
    actualVersionHash := none }

/-- Witness ready-reply for claim C5: not ready, waiting for another
expectation. -/
def c5Ready : ReadyReply :=
  { ready := false
    isWaitingForAnother := some true
    sourceExists := some false
    reason := { user := "Waiting for other expectation"
                tech := "Waiting for expectation exp0" } }

/-- Witness environment for claim C5. -/
def c5Input : EvalInput :=
  { assignedWorker := some "workerA"
    fulfilledResult := .ok notFulfilled
    readyResult := .ok c5Ready
    onExpectationFullfilledReturn := false }

/-- Witness ready-reply for claim C6: ready to start, source exists. -/
def c6Ready : ReadyReply :=
  { ready := true
    isWaitingForAnother := none
    sourceExists := some true
    reason := { user := "Ready", tech := "Source found" } }

/-- Witness environment for claim C6. -/
def c6Input : EvalInput :=
  { assignedWorker := some "workerA"
    fulfilledResult := .ok notFulfilled
    readyResult := .ok c6Ready
    onExpectationFullfilledReturn := false }

/-- Witness environment for claim C7: no worker assigned. -/
def c7Input : EvalInput :=
  { assignedWorker := none
    fulfilledResult := .ok notFulfilled
    readyResult := .ok c6Ready
    onExpectationFullfilledReturn := false }

/-- Witness state for claim C8: one in-flight call (caller 0) for group
"grp". -/
def c8State : DeferState :=
  { defers := fun k => if k = "grp" then some [0] else none }

/-- Witness promise for claim C9: settles at 1 ms with value 5. -/
def c9Early : TimedPromise String Nat := { settleTime := 1, result := .ok 5 }

/-- Witness promise for claim C9 and its counterexample: settles only at
5 ms. -/
def c9Late : TimedPromise String Nat := { settleTime := 5, result := .ok 7 }

/-- Witness accessor for claim C10: a generic HTTP accessor (the literal
type forces its `allowWrite` field to be `false`). -/
def c10HttpAccessor : AccessorAny :=
  .http { label := "HTTP", allowRead := true, allowWrite := false,
          allowWrite_false := rfl, baseUrl := "http://myhost.com/fileShare/",
          networkId := none }

/-! ## Order facts for the key comparator -/

instance {α : Type} : IsTotal (String × α) fieldLe := by
  constructor
  intro a b
  show jsKeyLe a.1 b.1 = true ∨ jsKeyLe b.1 a.1 = true
  unfold jsKeyLe
  generalize a.1.data = x
  generalize b.1.data = y
  induction x generalizing y with
  | nil => exact Or.inl rfl
  | cons c cs ih =>
    cases y with
    | nil => exact Or.inr rfl
    | cons d ds =>
      by_cases h1 : c.toNat < d.toNat
      · exact Or.inl (by simp [strLeB, h1])
      · by_cases h2 : d.toNat < c.toNat
        · exact Or.inr (by simp [strLeB, h2])
        · rcases ih ds with h | h
          · exact Or.inl (by simp [strLeB, h1, h2, h])
          · exact Or.inr (by simp [strLeB, h1, h2, h])

instance {α : Type} : IsTrans (String × α) fieldLe := by
  constructor
  intro a b c hab hbc
  show jsKeyLe a.1 c.1 = true
  unfold jsKeyLe
  replace hab : strLeB a.1.data b.1.data = true := hab
  replace hbc : strLeB b.1.data c.1.data = true := hbc
  revert hab hbc
  generalize a.1.data = x
  generalize b.1.data = y
  generalize c.1.data = z
  intro hab hbc
  induction x generalizing y z with
  | nil => rfl
  | cons cx cxs ih =>
    cases y with
    | nil => simp [strLeB] at hab
    | cons cy cys =>
      cases z with
      | nil => simp [strLeB] at hbc
      | cons cz czs =>
        simp only [strLeB] at hab hbc ⊢
        split at hab
        · rename_i hxy
          split at hbc
          · rename_i hyz
            simp [show cx.toNat < cz.toNat by omega]
          · split at hbc
            · simp at hbc
            · rename_i hyz hzy
              simp [show cx.toNat < cz.toNat by omega]
        · split at hab
          · simp at hab
          · rename_i hxy hyx
            split at hbc
            · rename_i hyz
              simp [show cx.toNat < cz.toNat by omega]
            · split at hbc
              · simp at hbc
              · rename_i hyz hzy
                have h1 : ¬ cx.toNat < cz.toNat := by omega
                have h2 : ¬ cz.toNat < cx.toNat := by omega
                simp [h1, h2, ih cys czs hab hbc]

/-! ## Helper lemmas about the hash of sorted properties -/

theorem hashFieldList_eq_map (h : String → String) (l : List (String × JsVal)) :
    hashFieldList h l = l.map fun p => (p.1, hashObjWith h p.2) := by
  induction l with
  | nil => simp [hashFieldList]
  | cons p ps ih => simp [hashFieldList, ih]

theorem canonFieldList_eq_map (l : List (String × JsVal)) :
    canonFieldList l = l.map fun p => (p.1, canonKeyOrder p.2) := by
  induction l with
  | nil => simp [canonFieldList]
  | cons p ps ih => simp [canonFieldList, ih]

theorem insertionSort_fieldLe_map {α β : Type} (g : α → β) (l : List (String × α)) :
    (List.insertionSort fieldLe l).map (fun p => (p.1, g p.2))
      = List.insertionSort fieldLe (l.map fun p => (p.1, g p.2)) := by
  refine List.map_insertionSort fieldLe fieldLe _ l ?_
  intro a _ b _
  exact Iff.rfl

theorem insertionSort_fieldLe_idem {α : Type} (l : List (String × α)) :
    List.insertionSort fieldLe (List.insertionSort fieldLe l)
      = List.insertionSort fieldLe l :=
  List.Sorted.insertionSort_eq (List.sorted_insertionSort fieldLe l)

mutual
theorem hashObjWith_canonKeyOrder (h : String → String) :
    ∀ v : JsVal, hashObjWith h (canonKeyOrder v) = hashObjWith h v
  | .undef => rfl
  | .null => rfl
  | .bool _ => rfl
  | .num _ => rfl
  | .str _ => rfl
  | .arr items => by
      simp only [canonKeyOrder, hashObjWith, jsFalsy]
      rw [hashValList_canonList h items]
  | .obj fields => by
      simp only [canonKeyOrder, hashObjWith, jsFalsy]
      rw [hashFieldList_eq_map, insertionSort_fieldLe_map, insertionSort_fieldLe_idem,
        ← hashFieldList_eq_map, hashFieldList_canonFieldList h fields]

theorem hashValList_canonList (h : String → String) :
    ∀ vs : List JsVal, hashValList h (canonList vs) = hashValList h vs
  | [] => rfl
  | v :: vs => by
      simp only [canonList, hashValList]
      rw [hashObjWith_canonKeyOrder h v, hashValList_canonList h vs]

theorem hashFieldList_canonFieldList (h : String → String) :
    ∀ fs : List (String × JsVal), hashFieldList h (canonFieldList fs) = hashFieldList h fs
  | [] => rfl
  | p :: ps => by
      simp only [canonFieldList, hashFieldList]
      rw [hashObjWith_canonKeyOrder h p.2, hashFieldList_canonFieldList h ps]
end

/-! ## Claims C3 and C4: hashObj as a change detector -/

/-- Claim C3 is false on the code: `hashObj` hashes only the value hashes of
an object in sorted-key order and never mixes the key names in, so the
structurally different objects `c3ObjA` and `c3ObjB` (their own `deepEqual`
refutes equality, and the keys differ outright) collide for every choice of
the underlying string hash, collision-free or not.  This contradicts the
doc comment of `hashObj` ("Returns a string that changes whenever the input
changes") and defeats the change detection the spec asks of the ingest
step. -/
theorem C3_hashObj_keys_not_hashed :
    ∀ h : String → String,
      hashObjWith h c3ObjA = hashObjWith h c3ObjB
        ∧ deepEqual c3ObjA c3ObjB = false
        ∧ c3ObjA ≠ c3ObjB := by
  intro h
  refine ⟨rfl, rfl, ?_⟩
  intro hcontr
  have : "a" = "b" := by
    have := congrArg (fun v =>
      match v with
      | JsVal.obj ((k, _) :: _) => k
      | _ => "") hcontr
    simp only [c3ObjA, c3ObjB] at this
    exact this
  simp at this

/-- Claim C4: two values carrying the same key-to-value mappings that differ
only in the order of object keys, at any depth, have equal canonical forms,
and then `hashObj` gives them the same hash string, for every underlying
string hash. -/
theorem C4_hashObj_key_order_independent (h : String → String) (v1 v2 : JsVal)
    (hc : canonKeyOrder v1 = canonKeyOrder v2) :
    hashObjWith h v1 = hashObjWith h v2 := by
  rw [← hashObjWith_canonKeyOrder h v1, ← hashObjWith_canonKeyOrder h v2, hc]

theorem C4_hashObj_key_order_independent_witness :
    canonKeyOrder c4Left = canonKeyOrder c4Right
      ∧ hashObjWith hashDemo c4Left = hashObjWith hashDemo c4Right :=
  ⟨rfl, C4_hashObj_key_order_independent hashDemo c4Left c4Right rfl⟩

/-! ## Claims C1, C2, C5, C6, C7: the WAITING evaluation -/

theorem stringifyError_plain (s : String) (hne : s ≠ "[object Object]") :
    stringifyError { base := s, isObject := false, reason := none, context := none,
                     stack := none, json := none } false = s := by
  simp [stringifyError, truthyStr, hne]

theorem waiting_eval_catch (inp : EvalInput) (t : TrackedExp) (w : String) (e : ErrVal)
    (hW : t.state = .WAITING) (ha : inp.assignedWorker = some w)
    (he : inp.fulfilledResult = .error e
      ∨ ∃ fr, inp.fulfilledResult = .ok fr ∧ fr.fulfilled = false
          ∧ inp.readyResult = .error e) :
    ∃ out, evaluateExpectationStateWaiting inp t = .ok out
      ∧ out.tracked = applyUpdate t (waitingCatchUpdate w e) := by
  obtain ⟨aw, fres, rres, tret⟩ := inp
  rcases he with he | ⟨fr, hfr, hful, hrr⟩
  · subst he
    simp only at ha
    subst ha
    refine ⟨⟨applyUpdate t (waitingCatchUpdate w e),
             ⟨some w, false⟩,
             [.rpcIsExpectationFullfilled,
              .logWarn ("Error in WAITING: " ++ stringifyError e false)]⟩, ?_, rfl⟩
    simp [evaluateExpectationStateWaiting, hW]
  · simp only at ha hfr hrr
    subst ha
    subst hfr
    subst hrr
    refine ⟨⟨applyUpdate t (waitingCatchUpdate w e),
             ⟨some w, false⟩,
             [.rpcIsExpectationFullfilled,
              .rpcIsExpectationReadyToStartWorkingOn,
              .logWarn ("Error in WAITING: " ++ stringifyError e false)]⟩, ?_, rfl⟩
    simp [evaluateExpectationStateWaiting, hW, hful]

/-- Claim C2, amended: a worker call that throws during the WAITING
evaluation does not escape the step: the evaluation still returns normally,
with the state reset to NEW, `isError = true`, the fixed user reason and a
tech reason embedding the `stringifyError` summary of the cause (whose
length is only bounded in the JSON-stringify fallback, see the
counterexample). -/
theorem C2_waiting_error_resets_to_NEW (inp : EvalInput) (t : TrackedExp) (w : String)
    (e : ErrVal) (hW : t.state = .WAITING) (ha : inp.assignedWorker = some w)
    (he : inp.fulfilledResult = .error e
      ∨ ∃ fr, inp.fulfilledResult = .ok fr ∧ fr.fulfilled = false
          ∧ inp.readyResult = .error e) :
    ∃ out, evaluateExpectationStateWaiting inp t = .ok out
      ∧ out.tracked.state = .NEW
      ∧ out.tracked.isError = true
      ∧ out.tracked.reason.user = "Restarting due to error"
      ∧ out.tracked.reason.tech
          = "Error from worker " ++ w ++ ": \"" ++ stringifyError e false ++ "\"" := by
  obtain ⟨out, hout, htr⟩ := waiting_eval_catch inp t w e hW ha he
  exact ⟨out, hout, by simp [htr, applyUpdate, waitingCatchUpdate]⟩

theorem C2_waiting_error_resets_to_NEW_witness :
    ∃ out, evaluateExpectationStateWaiting c2Input waitingTracked = .ok out
      ∧ out.tracked.state = .NEW
      ∧ out.tracked.isError = true
      ∧ out.tracked.reason.user = "Restarting due to error"
      ∧ out.tracked.reason.tech
          = "Error from worker workerA: \"" ++ stringifyError c2Err false ++ "\"" :=
  C2_waiting_error_resets_to_NEW c2Input waitingTracked "workerA" c2Err rfl rfl (Or.inl rfl)

/-- Claim C2, counterexample to the "bounded-length summary" part: there is
no uniform bound on the length of the tech reason the catch block produces;
for every candidate bound a plain string error beats it, because
`stringifyError` truncates (to 200 characters plus an ellipsis) only in its
JSON-stringify fallback branch. -/
theorem C2_no_uniform_tech_reason_bound :
    ¬ ∃ B : Nat, ∀ (e : ErrVal) (out : EvalOutput),
        evaluateExpectationStateWaiting
            { assignedWorker := some "workerA", fulfilledResult := .error e,
              readyResult := .ok { ready := false, isWaitingForAnother := none,
                                   sourceExists := none,
                                   reason := { user := "", tech := "" } },
              onExpectationFullfilledReturn := false }
            waitingTracked = .ok out
          → out.tracked.reason.tech.length ≤ B := by
  rintro ⟨B, hB⟩
  set s : String := ⟨List.replicate (B + 16) 'a'⟩ with hs
  have hslen : s.length = B + 16 := by
    simp [hs, String.length]
  have hsne : s ≠ "[object Object]" := by
    intro hcontr
    have := congrArg String.length hcontr
    rw [hslen] at this
    have h15 : ("[object Object]" : String).length = 15 := rfl
    omega
  set e0 : ErrVal := { base := s, isObject := false, reason := none, context := none,
                       stack := none, json := none } with he0
  have heval := hB e0
    ⟨applyUpdate waitingTracked (waitingCatchUpdate "workerA" e0),
     ⟨some "workerA", false⟩,
     [.rpcIsExpectationFullfilled,
      .logWarn ("Error in WAITING: " ++ stringifyError e0 false)]⟩
    (by simp [evaluateExpectationStateWaiting, waitingTracked])
  have htech : (applyUpdate waitingTracked (waitingCatchUpdate "workerA" e0)).reason.tech
      = "Error from worker workerA: \"" ++ stringifyError e0 false ++ "\"" := rfl
  rw [htech] at heval
  have hse : stringifyError e0 false = s := stringifyError_plain s hsne
  rw [hse, String.length_append, String.length_append, hslen] at heval
  omega

/-- Claim C1, amended: with an assigned worker reporting
`isExpectationFullfilled = true`, the WAITING evaluation sets the state to
FULFILLED, calls `tracker.onExpectationFullfilled` and copies its return
into `session.triggerOtherExpectationsAgain`; the rest of the tracked
expectation — in particular `status.actualVersionHash` — is left untouched,
the worker-returned hash being discarded (see the counterexample). -/
theorem C1_fulfilled_transition (inp : EvalInput) (t : TrackedExp) (w : String)
    (fr : FulfilledReply) (hW : t.state = .WAITING) (ha : inp.assignedWorker = some w)
    (hf : inp.fulfilledResult = .ok fr) (hful : fr.fulfilled = true) :
    evaluateExpectationStateWaiting inp t = .ok
      { tracked := { state := .FULFILLED, reason := t.reason, status := t.status,
                     isError := t.isError }
        session := { assignedWorker := some w
                     triggerOtherExpectationsAgain := inp.onExpectationFullfilledReturn }
        effects := [.rpcIsExpectationFullfilled, .callOnExpectationFullfilled] } := by
  obtain ⟨aw, fres, rres, tret⟩ := inp
  simp only at ha hf ⊢
  subst ha
  subst hf
  simp [evaluateExpectationStateWaiting, hW, hful, applyUpdate]

theorem C1_fulfilled_transition_witness :
    evaluateExpectationStateWaiting c1Input waitingTracked = .ok
      { tracked := { state := .FULFILLED, reason := waitingTracked.reason,
                     status := waitingTracked.status, isError := waitingTracked.isError }
        session := { assignedWorker := some "workerA"
                     triggerOtherExpectationsAgain := c1Input.onExpectationFullfilledReturn }
        effects := [.rpcIsExpectationFullfilled, .callOnExpectationFullfilled] } :=
  C1_fulfilled_transition c1Input waitingTracked "workerA" c1Fulfilled rfl rfl rfl rfl

/-- Claim C1 is partly false on the code: on the witness input the worker
returns `actualVersionHash = some "abc123"` and the evaluation reaches
FULFILLED, yet the recorded `status.actualVersionHash` stays `none` — the
update passed to `updateTrackedExpectationStatus` in waiting.ts carries only
the state field, so the worker-returned hash is not recorded. -/
theorem C1_actualVersionHash_not_recorded :
    (evaluateExpectationStateWaiting c1Input waitingTracked).toOption.map
        (fun o => (o.tracked.state, o.tracked.status.actualVersionHash))
        = some (.FULFILLED, none)
      ∧ (c1Input.fulfilledResult.toOption.map fun fr => fr.actualVersionHash)
          = some (some "abc123")
      ∧ (none : Option String) ≠ some "abc123" := by
  refine ⟨rfl, rfl, by simp⟩

/-- Claim C5: with an assigned worker, not fulfilled and not ready — if the
reply says `isWaitingForAnother`, the evaluation keeps the WAITING state and
updates only the reason and the status; for any other not-ready reason it
resets the state to NEW (same reason/status handling). -/
theorem C5_not_ready_branches (inp : EvalInput) (t : TrackedExp) (w : String)
    (fr : FulfilledReply) (rr : ReadyReply) (hW : t.state = .WAITING)
    (ha : inp.assignedWorker = some w) (hf : inp.fulfilledResult = .ok fr)
    (hful : fr.fulfilled = false) (hr : inp.readyResult = .ok rr)
    (hnr : rr.ready = false) :
    (rr.isWaitingForAnother = some true →
      evaluateExpectationStateWaiting inp t = .ok
        { tracked := { state := .WAITING
                       reason := rr.reason
                       status := { sourceExists :=
                                     match rr.sourceExists with
                                     | some b => some b
                                     | none => t.status.sourceExists
                                   actualVersionHash := t.status.actualVersionHash }
                       isError := t.isError }
          session := { assignedWorker := some w, triggerOtherExpectationsAgain := false }
          effects := [.rpcIsExpectationFullfilled,
                      .rpcIsExpectationReadyToStartWorkingOn] })
    ∧ (rr.isWaitingForAnother ≠ some true →
      evaluateExpectationStateWaiting inp t = .ok
        { tracked := { state := .NEW
                       reason := rr.reason
                       status := { sourceExists :=
                                     match rr.sourceExists with
                                     | some b => some b
                                     | none => t.status.sourceExists
                                   actualVersionHash := t.status.actualVersionHash }
                       isError := t.isError }
          session := { assignedWorker := some w, triggerOtherExpectationsAgain := false }
          effects := [.rpcIsExpectationFullfilled,
                      .rpcIsExpectationReadyToStartWorkingOn] }) := by
  obtain ⟨aw, fres, rres, tret⟩ := inp
  simp only at ha hf hr
  subst ha
  subst hf
  subst hr
  constructor
  · intro hiw
    simp [evaluateExpectationStateWaiting, hW, hful, hnr, hiw, applyUpdate]
  · intro hiw
    simp [evaluateExpectationStateWaiting, hW, hful, hnr, hiw, applyUpdate]

theorem C5_not_ready_branches_witness :
    evaluateExpectationStateWaiting c5Input waitingTracked = .ok
      { tracked := { state := .WAITING
                     reason := c5Ready.reason
                     status := { sourceExists := some false, actualVersionHash := none }
                     isError := false }
        session := { assignedWorker := some "workerA", triggerOtherExpectationsAgain := false }
        effects := [.rpcIsExpectationFullfilled,
                    .rpcIsExpectationReadyToStartWorkingOn] } :=
  (C5_not_ready_branches c5Input waitingTracked "workerA" notFulfilled c5Ready
    rfl rfl rfl rfl rfl rfl).1 rfl

/-- Claim C6: with an assigned worker, not fulfilled but ready, the
evaluation moves the state to READY, sets the about-to-start reason, and
copies `sourceExists` into the tracked status whenever the reply defines
it. -/
theorem C6_ready_transition (inp : EvalInput) (t : TrackedExp) (w : String)
    (fr : FulfilledReply) (rr : ReadyReply) (hW : t.state = .WAITING)
    (ha : inp.assignedWorker = some w) (hf : inp.fulfilledResult = .ok fr)
    (hful : fr.fulfilled = false) (hr : inp.readyResult = .ok rr)
    (hready : rr.ready = true) :
    evaluateExpectationStateWaiting inp t = .ok
      { tracked := { state := .READY
                     reason := { user := "About to start working.."
                                 tech := "About to start, was not fulfilled: "
                                           ++ fr.reason.tech }
                     status := { sourceExists :=
                                   match rr.sourceExists with
                                   | some b => some b
                                   | none => t.status.sourceExists
                                 actualVersionHash := t.status.actualVersionHash }
                     isError := t.isError }
        session := { assignedWorker := some w, triggerOtherExpectationsAgain := false }
        effects := [.rpcIsExpectationFullfilled,
                    .rpcIsExpectationReadyToStartWorkingOn] } := by
  obtain ⟨aw, fres, rres, tret⟩ := inp
  simp only at ha hf hr
  subst ha
  subst hf
  subst hr
  simp [evaluateExpectationStateWaiting, hW, hful, hready, applyUpdate]

theorem C6_ready_transition_witness :
    evaluateExpectationStateWaiting c6Input waitingTracked = .ok
      { tracked := { state := .READY
                     reason := { user := "About to start working.."
                                 tech := "About to start, was not fulfilled: "
                                           ++ notFulfilled.reason.tech }
                     status := { sourceExists := some true, actualVersionHash := none }
                     isError := false }
        session := { assignedWorker := some "workerA", triggerOtherExpectationsAgain := false }
        effects := [.rpcIsExpectationFullfilled,
                    .rpcIsExpectationReadyToStartWorkingOn] } :=
  C6_ready_transition c6Input waitingTracked "workerA" notFulfilled c6Ready
    rfl rfl rfl rfl rfl rfl

/-- Claim C7: when `assignWorkerToSession` assigned no worker, the WAITING
evaluation leaves the tracked expectation entirely unchanged (in particular
its state stays WAITING), issues no worker RPC, and only records the
no-worker situation via `tracker.noWorkerAssigned`. -/
theorem C7_no_worker_assigned (inp : EvalInput) (t : TrackedExp)
    (hW : t.state = .WAITING) (ha : inp.assignedWorker = none) :
    evaluateExpectationStateWaiting inp t = .ok
        { tracked := t
          session := { assignedWorker := none, triggerOtherExpectationsAgain := false }
          effects := [.noWorkerAssignedRecord] }
      ∧ ∀ out, evaluateExpectationStateWaiting inp t = .ok out →
          out.tracked.state = .WAITING
          ∧ EvalEffect.rpcIsExpectationFullfilled ∉ out.effects
          ∧ EvalEffect.rpcIsExpectationReadyToStartWorkingOn ∉ out.effects := by
  obtain ⟨aw, fres, rres, tret⟩ := inp
  simp only at ha
  subst ha
  have heq : evaluateExpectationStateWaiting
      ⟨none, fres, rres, tret⟩ t = .ok
        { tracked := t
          session := { assignedWorker := none, triggerOtherExpectationsAgain := false }
          effects := [.noWorkerAssignedRecord] } := by
    simp [evaluateExpectationStateWaiting, hW]
  refine ⟨heq, ?_⟩
  intro out hout
  rw [heq] at hout
  cases hout
  simp [hW]

theorem C7_no_worker_assigned_witness :
    evaluateExpectationStateWaiting c7Input waitingTracked = .ok
      { tracked := waitingTracked
        session := { assignedWorker := none, triggerOtherExpectationsAgain := false }
        effects := [.noWorkerAssignedRecord] } :=
  (C7_no_worker_assigned c7Input waitingTracked rfl rfl).1

/-! ## Claim C8: deferGets coalescing -/

/-- Claim C8: while a call for group `g` is in flight (the defers map has an
entry), a further call joins the waiting list without invoking the wrapped
function, and when the in-flight invocation settles every waiter of the
group — the joiner included — receives that very settlement result; the
settlement also removes the group entry, so the next call for `g` invokes
the wrapped function anew. -/
theorem C8_deferGets_coalesces {R : Type} (s : DeferState) (g : String)
    (c c2 : Nat) (ws : List Nat) (r : R) (h : s.defers g = some ws) :
    (deferCall s g c).2 = false
      ∧ (deferSettle (deferCall s g c).1 g r).2 = (ws ++ [c]).map (fun x => (x, r))
      ∧ ((deferSettle (deferCall s g c).1 g r).1).defers g = none
      ∧ (deferCall ((deferSettle (deferCall s g c).1 g r).1) g c2).2 = true := by
  refine ⟨by simp [deferCall, h], ?_, ?_, ?_⟩
  · simp [deferCall, deferSettle, h]
  · simp [deferCall, deferSettle, h]
  · simp [deferCall, deferSettle, h]

theorem C8_deferGets_coalesces_witness :
    (deferCall c8State "grp" 1).2 = false
      ∧ (deferSettle (deferCall c8State "grp" 1).1 "grp"
            (Except.error "boom" : Except String Nat)).2
          = [(0, Except.error "boom"), (1, Except.error "boom")]
      ∧ ((deferSettle (deferCall c8State "grp" 1).1 "grp"
            (Except.error "boom" : Except String Nat)).1).defers "grp" = none
      ∧ (deferCall ((deferSettle (deferCall c8State "grp" 1).1 "grp"
            (Except.error "boom" : Except String Nat)).1) "grp" 2).2 = true :=
  C8_deferGets_coalesces c8State "grp" 1 2 [0] (Except.error "boom") rfl

/-! ## Claim C9: promiseTimeout -/

/-- Claim C9, amended: the settlement of `promiseTimeout p t tm` always
happens by time `t`; if `p` settles strictly before the timer fires, its
value (or rejection reason) is passed through unchanged; otherwise the
promise rejects at time `t` with the rendered timeout message — the given
string when it is non-empty, the function value on the elapsed duration for
the function form, and "Timeout" when the message is absent or renders
empty (the JS or-else fallback; the claim as stated fails on the empty-string
message, see the counterexample). -/
theorem C9_promiseTimeout_bounded {E A : Type} (p : TimedPromise E A) (t : Nat)
    (tm : TimeoutMessage) :
    (promiseTimeout p t tm).settleTime ≤ t
      ∧ (p.settleTime < t →
          promiseTimeout p t tm
            = { settleTime := p.settleTime, result := p.result.mapError Sum.inl })
      ∧ (t ≤ p.settleTime →
          (promiseTimeout p t tm).settleTime = t
            ∧ (∀ s, tm = .msg s → s ≠ "" →
                (promiseTimeout p t tm).result = .error (.inr s))
            ∧ ((tm = .noMsg ∨ tm = .msg "") →
                (promiseTimeout p t tm).result = .error (.inr "Timeout"))
            ∧ (∀ f, tm = .msgFn f →
                (promiseTimeout p t tm).result
                  = .error (.inr (if f t = "" then "Timeout" else f t)))) := by
  by_cases hlt : p.settleTime < t
  · refine ⟨by simp [promiseTimeout, hlt]; omega, fun _ => by simp [promiseTimeout, hlt], ?_⟩
    intro hge
    omega
  · refine ⟨by simp [promiseTimeout, hlt], fun hc => absurd hc hlt, fun _ => ?_⟩
    refine ⟨by simp [promiseTimeout, hlt], ?_, ?_, ?_⟩
    · intro s hs hne
      subst hs
      simp [promiseTimeout, hlt, hne]
    · rintro (hm | hm) <;> subst hm <;> simp [promiseTimeout, hlt]
    · intro f hf
      subst hf
      simp [promiseTimeout, hlt]

theorem C9_promiseTimeout_bounded_witness :
    promiseTimeout c9Early 3 (.msg "too slow")
        = { settleTime := 1, result := (Except.ok 5).mapError Sum.inl }
      ∧ (promiseTimeout c9Late 3 (.msg "too slow")).result
          = .error (.inr "too slow") :=
  ⟨(C9_promiseTimeout_bounded c9Early 3 (.msg "too slow")).2.1 (by decide),
    ((C9_promiseTimeout_bounded c9Late 3 (.msg "too slow")).2.2
      (by decide)).2.1 "too slow" rfl (by decide)⟩

/-- Claim C9 is partly false on the code: when a timeout message is given
but is the empty string, the or-else fallback discards it and the promise
rejects with "Timeout" rather than with the given message. -/
theorem C9_empty_message_replaced :
    (promiseTimeout c9Late 3 (.msg "")).result = .error (.inr "Timeout")
      ∧ (promiseTimeout c9Late 3 (.msg "")).result ≠ .error (.inr "") := by
  constructor
  · rfl
  · intro hcontr
    have h1 := Except.error.inj hcontr
    have h2 := Sum.inr.inj h1
    have : ("Timeout" : String) ≠ "" := by decide
    exact this h2

/-! ## Claim C10: HTTP accessors are read-only by type -/

/-- Claim C10: the `Accessor.HTTP` interface pins `allowWrite` to the
literal `false`, so every accessor whose discriminant is HTTP denies write
access, while the distinct `Accessor.HTTPProxy` variant leaves `allowWrite`
free and can grant it. -/
theorem C10_http_accessor_read_only :
    (∀ acc : AccessorAny, acc.isHTTP = true → acc.allowWriteOf = false)
      ∧ (∃ p : AccessorHTTPProxy, p.allowWrite = true) := by
  constructor
  · intro acc hacc
    cases acc with
    | http a => exact a.allowWrite_false
    | localFolder a => simp [AccessorAny.isHTTP] at hacc
    | fileShare a => simp [AccessorAny.isHTTP] at hacc
    | httpProxy a => simp [AccessorAny.isHTTP] at hacc
    | quantel a => simp [AccessorAny.isHTTP] at hacc
    | corePackageCollection a => simp [AccessorAny.isHTTP] at hacc
    | atemMediaStore a => simp [AccessorAny.isHTTP] at hacc
  · exact ⟨{ label := "HTTP proxy", allowRead := true, allowWrite := true,
             baseUrl := "http://myhost.com/fileShare/", networkId := none }, rfl⟩

theorem C10_http_accessor_read_only_witness :
    c10HttpAccessor.allowWriteOf = false :=
  C10_http_accessor_read_only.1 c10HttpAccessor rfl
